import Mathlib

/-!
Verification of the demuxrs protocol demultiplexer.

The development shallowly embeds the two source files of the repository:

* `src/detect.rs` — the protocol registry and the pure recognizers
  (`detect_is_tls`, `detect_is_ssh`, `detect_is_http`, `detect_is_xmpp`,
  the `PROTOCOLS` table and `detect`).  Byte buffers are modelled as
  `List Nat`, the Rust `DetectResult` enum as an inductive type, and
  `buf.windows(k).any(|b| b == pat)` as the boolean search `hasWindow`.

* `src/main.rs` — the per-connection control flow.  The stateful socket
  code is embedded as explicit trace semantics: `handle_proxy` maps a
  schedule of relay read events to the list of I/O events the code
  performs, and `classify` runs the sniffing loop of `handle_connection`
  over a timed schedule of client data arrivals, tracking elapsed time.
-/

/-- Rust enum `DetectResult` from src/detect.rs: `Success` (matched),
`Failure` (rejected), `NotEnoughData` (inconclusive). -/
inductive DetectResult
  | Success
  | Failure
  | NotEnoughData
deriving DecidableEq

/-- Embedding of Rust `buf.windows(pat.len()).any(|b| b == pat)`: does
`pat` occur as a contiguous run somewhere in the buffer?  (For nonempty
`pat` a buffer shorter than `pat` has no windows and yields `false`.) -/
def hasWindow (pat : List Nat) : List Nat → Bool
  | [] => false
  | b :: rest => (List.take pat.length (b :: rest) == pat) || hasWindow pat rest

/-- `detect_is_tls` from src/detect.rs: needs 3 bytes; record type 0x16,
version major 0x03, version minor at most 0x03. -/
def detect_is_tls (buf : List Nat) : DetectResult :=
  if buf.length < 3 then .NotEnoughData
  else if buf.getD 0 0 = 0x16 ∧ buf.getD 1 0 = 0x03 ∧ buf.getD 2 0 ≤ 0x03 then .Success
  else .Failure

/-- The bytes of the literal "SSH-". -/
def SSH_DASH : List Nat := [0x53, 0x53, 0x48, 0x2d]

/-- `detect_is_ssh` from src/detect.rs: needs 4 bytes; matches iff the
buffer starts with "SSH-". -/
def detect_is_ssh (buf : List Nat) : DetectResult :=
  if buf.length < 4 then .NotEnoughData
  else if List.isPrefixOf SSH_DASH buf then .Success
  else .Failure

/-- The bytes of the literal "HTTP". -/
def HTTP_BYTES : List Nat := [0x48, 0x54, 0x54, 0x50]

/-- The HTTP method tokens searched for by `detect_is_http`, in source
order: GET, PUT, HEAD, POST, TRACE, DELETE, CONNECT, OPTIONS. -/
def METHODS : List (List Nat) :=
  [[0x47, 0x45, 0x54],
   [0x50, 0x55, 0x54],
   [0x48, 0x45, 0x41, 0x44],
   [0x50, 0x4f, 0x53, 0x54],
   [0x54, 0x52, 0x41, 0x43, 0x45],
   [0x44, 0x45, 0x4c, 0x45, 0x54, 0x45],
   [0x43, 0x4f, 0x4e, 0x4e, 0x45, 0x43, 0x54],
   [0x4f, 0x50, 0x54, 0x49, 0x4f, 0x4e, 0x53]]

/-- `detect_is_http` from src/detect.rs: needs 3 bytes; matches if "HTTP"
occurs anywhere in the buffer, or any method token occurs anywhere. -/
def detect_is_http (buf : List Nat) : DetectResult :=
  if buf.length < 3 then .NotEnoughData
  else if hasWindow HTTP_BYTES buf then .Success
  else if METHODS.any (fun m => hasWindow m buf) then .Success
  else .Failure

/-- The bytes of the literal "jabber". -/
def JABBER : List Nat := [0x6a, 0x61, 0x62, 0x62, 0x65, 0x72]

/-- `detect_is_xmpp` from src/detect.rs: needs 50 bytes; matches if
"jabber" occurs anywhere in the buffer. -/
def detect_is_xmpp (buf : List Nat) : DetectResult :=
  if buf.length < 50 then .NotEnoughData
  else if hasWindow JABBER buf then .Success
  else .Failure

/-- The fixed ordered registry `PROTOCOLS` from src/detect.rs. -/
def PROTOCOLS : List (String × (List Nat → DetectResult)) :=
  [("tls", detect_is_tls),
   ("http", detect_is_http),
   ("ssh", detect_is_ssh),
   ("xmpp", detect_is_xmpp)]

/-- The loop body of `detect`: scan the registry entries in order and
return the first name whose recognizer reports `Success`. -/
def detectFrom : List (String × (List Nat → DetectResult)) → List Nat → Option String
  | [], _ => none
  | (name, f) :: rest, buf => if f buf = .Success then some name else detectFrom rest buf

/-- `detect` from src/detect.rs. -/
def detect (buf : List Nat) : Option String := detectFrom PROTOCOLS buf

/-- `protocol_names` from src/detect.rs. -/
def protocol_names : List String := PROTOCOLS.map (fun e => e.1)

/-- The static configuration from src/main.rs: the upstream map (an
association list standing in for the `HashMap`, addresses abstracted to
`Nat`) and the read timeout in milliseconds. -/
structure Config where
  upstreams : List (String × Nat)
  timeout : Nat

/-- `Config::upstream_for` from src/main.rs: `self.upstreams.get(proto)
.and_then(|s| Some(s.clone()))`. -/
def Config.upstream_for (c : Config) (proto : String) : Option Nat :=
  (c.upstreams.lookup proto).bind (fun s => some s)

/-- One observable I/O action of the connection handler: the "no
upstream" warning, the upstream dial, and the four socket transfers. -/
inductive Event
  | LogWarn (proto : String)
  | Dial (addr : Nat)
  | WriteServer (chunk : List Nat)
  | ReadClient (chunk : List Nat)
  | ReadServer (chunk : List Nat)
  | WriteClient (chunk : List Nat)
deriving DecidableEq

/-- One readiness outcome of the `select!` in the relay loop of
`handle_proxy`: which socket became readable, and the chunk the
following `read` returns (the empty chunk is a zero-byte read, EOF). -/
inductive RelayStep
  | FromClient (chunk : List Nat)
  | FromServer (chunk : List Nat)
deriving DecidableEq

/-- Trace of the relay loop in `handle_proxy` (src/main.rs): each
iteration reads from whichever socket the schedule says is ready and
writes the chunk to the opposite socket; a zero-byte read breaks. -/
def relayEvents : List RelayStep → List Event
  | [] => []
  | .FromClient c :: rest =>
      if c = [] then [] else .ReadClient c :: .WriteServer c :: relayEvents rest
  | .FromServer c :: rest =>
      if c = [] then [] else .ReadServer c :: .WriteClient c :: relayEvents rest

/-- `handle_proxy` from src/main.rs as a trace function: looks up the
upstream (warn and return Ok when absent), dials it (`dialOk` says
whether the dial succeeds), writes the buffered initial bytes, then runs
the relay loop.  Returns (completed without error, event trace). -/
def handle_proxy (cfg : Config) (proto : String) (initialBuf : List Nat)
    (dialOk : Bool) (steps : List RelayStep) : Bool × List Event :=
  match cfg.upstream_for proto with
  | none => (true, [.LogWarn proto])
  | some addr =>
    if dialOk then (true, .Dial addr :: .WriteServer initialBuf :: relayEvents steps)
    else (false, [.Dial addr])

/-- The payloads of the `WriteServer` events of a trace, in order. -/
def serverWrites (evs : List Event) : List (List Nat) :=
  evs.filterMap (fun e => match e with | .WriteServer c => some c | _ => none)

/-- The payloads of the `ReadClient` events of a trace, in order. -/
def clientReads (evs : List Event) : List (List Nat) :=
  evs.filterMap (fun e => match e with | .ReadClient c => some c | _ => none)

/-- Terminal state of the sniffing loop in `handle_connection`:
classified with the accumulated buffer, gave up (EOF or nothing
detectable), or timed out. -/
inductive SniffOutcome
  | Classified (proto : String) (buf : List Nat)
  | GaveUp
  | TimedOut
deriving DecidableEq

/-- The final `detect` run after the sniffing loop breaks
(src/main.rs, end of `handle_connection`). -/
def finalDetect (buf : List Nat) : SniffOutcome :=
  match detect buf with
  | some p => .Classified p buf
  | none => .GaveUp

/-- The sniffing loop of `handle_connection` (src/main.rs) over a timed
schedule: each `(d, c)` is a client chunk becoming readable `d`
milliseconds into that iteration's wait.  Each iteration first checks
whether the 1024-byte buffer (capacity `cap`) is full, then arms a FRESH
timer of `T` milliseconds and waits: if no chunk arrives within `T` the
timer fires (`TimedOut`, modelling `d ≥ T`, and an empty schedule as no
data ever arriving); a zero-byte read breaks to the final detect; else
the read takes at most the remaining capacity, `detect` runs on all
bytes so far, and on `None` the loop repeats.  Returns the outcome and
the total elapsed time. -/
def classify (T cap : Nat) : List (Nat × List Nat) → List Nat → Nat → SniffOutcome × Nat
  | events, buf, elapsed =>
    if buf.length = cap then (finalDetect buf, elapsed)
    else
      match events with
      | [] => (.TimedOut, elapsed + T)
      | (d, c) :: rest =>
        if T ≤ d then (.TimedOut, elapsed + T)
        else if c = [] then (finalDetect buf, elapsed + d)
        else
          match detect (buf ++ c.take (cap - buf.length)) with
          | some p => (.Classified p (buf ++ c.take (cap - buf.length)), elapsed + d)
          | none => classify T cap rest (buf ++ c.take (cap - buf.length)) (elapsed + d)

/-- `handle_connection` resumed from an intermediate sniffing state
`(buf, elapsed)`: run the sniffing loop, and on classification hand the
accumulated buffer to `handle_proxy`; on give-up or timeout the
connection is dropped with no further I/O. -/
def handleFrom (cfg : Config) (cap : Nat) (events : List (Nat × List Nat))
    (buf : List Nat) (elapsed : Nat) (dialOk : Bool) (steps : List RelayStep) : List Event :=
  match classify cfg.timeout cap events buf elapsed with
  | (.Classified p b, _) => (handle_proxy cfg p b dialOk steps).2
  | _ => []

/-- `handle_connection` from src/main.rs: the sniffing state machine
started from the empty buffer. -/
def handle_connection (cfg : Config) (cap : Nat) (events : List (Nat × List Nat))
    (dialOk : Bool) (steps : List RelayStep) : List Event :=
  handleFrom cfg cap events [] 0 dialOk steps

/-- Spec-level statement that `pat` appears somewhere in `buf` as a
contiguous byte sequence (not anchored to the start). -/
def OccursIn (pat buf : List Nat) : Prop := ∃ l r, buf = l ++ pat ++ r

lemma take_eq_imp_le {pat l : List Nat} (h : List.take pat.length l = pat) :
    pat.length ≤ l.length := by
  have hl := congrArg List.length h
  simp [List.length_take] at hl
  omega

lemma hasWindow_cons (pat : List Nat) (b : Nat) (rest : List Nat) :
    hasWindow pat (b :: rest)
      = ((List.take pat.length (b :: rest) == pat) || hasWindow pat rest) := rfl

lemma hasWindow_append {pat p : List Nat} (s : List Nat) (h : hasWindow pat p = true) :
    hasWindow pat (p ++ s) = true := by
  induction p with
  | nil => simp [hasWindow] at h
  | cons b rest ih =>
    rw [List.cons_append]
    unfold hasWindow at h ⊢
    simp only [Bool.or_eq_true, beq_iff_eq] at h ⊢
    rcases h with h1 | h2
    · left
      have hle : pat.length ≤ (b :: rest).length := take_eq_imp_le h1
      rw [← List.cons_append, List.take_append_eq_append_take,
        Nat.sub_eq_zero_of_le hle, List.take_zero, List.append_nil]
      exact h1
    · right
      exact ih h2

lemma hasWindow_imp_occurs {pat buf : List Nat} (h : hasWindow pat buf = true) :
    OccursIn pat buf := by
  induction buf with
  | nil => simp [hasWindow] at h
  | cons b rest ih =>
    unfold hasWindow at h
    simp only [Bool.or_eq_true, beq_iff_eq] at h
    rcases h with h1 | h2
    · refine ⟨[], List.drop pat.length (b :: rest), ?_⟩
      have hsplit : b :: rest
          = List.take pat.length (b :: rest) ++ List.drop pat.length (b :: rest) :=
        (List.take_append_drop _ _).symm
      rw [h1] at hsplit
      rw [List.nil_append]
      exact hsplit
    · obtain ⟨l, r, hr⟩ := ih h2
      exact ⟨b :: l, r, by rw [hr]; rfl⟩

lemma occurs_imp_hasWindow {pat buf : List Nat} (hne : pat ≠ [])
    (h : OccursIn pat buf) : hasWindow pat buf = true := by
  obtain ⟨l, r, hr⟩ := h
  subst hr
  induction l with
  | nil =>
    obtain ⟨q, qs, rfl⟩ : ∃ q qs, pat = q :: qs := by
      cases pat with
      | nil => exact absurd rfl hne
      | cons q qs => exact ⟨q, qs, rfl⟩
    rw [List.nil_append, List.cons_append, hasWindow_cons]
    simp only [Bool.or_eq_true, beq_iff_eq]
    left
    rw [← List.cons_append, List.take_append_eq_append_take, Nat.sub_self,
      List.take_zero, List.append_nil, List.take_length]
  | cons x l' ih =>
    simp only [List.cons_append, List.append_assoc] at ih ⊢
    rw [hasWindow_cons]
    simp only [Bool.or_eq_true, beq_iff_eq]
    right
    exact ih

lemma isPrefixOf_ssh_ext (a b c d : Nat) (r s : List Nat) :
    List.isPrefixOf SSH_DASH (a :: b :: c :: d :: (r ++ s))
      = List.isPrefixOf SSH_DASH (a :: b :: c :: d :: r) := by
  simp [SSH_DASH, List.isPrefixOf]

lemma serverWrites_nil : serverWrites [] = [] := rfl

lemma serverWrites_readClient (c : List Nat) (evs : List Event) :
    serverWrites (.ReadClient c :: evs) = serverWrites evs := rfl

lemma serverWrites_writeServer (c : List Nat) (evs : List Event) :
    serverWrites (.WriteServer c :: evs) = c :: serverWrites evs := rfl

lemma serverWrites_readServer (c : List Nat) (evs : List Event) :
    serverWrites (.ReadServer c :: evs) = serverWrites evs := rfl

lemma serverWrites_writeClient (c : List Nat) (evs : List Event) :
    serverWrites (.WriteClient c :: evs) = serverWrites evs := rfl

lemma clientReads_nil : clientReads [] = [] := rfl

lemma clientReads_readClient (c : List Nat) (evs : List Event) :
    clientReads (.ReadClient c :: evs) = c :: clientReads evs := rfl

lemma clientReads_writeServer (c : List Nat) (evs : List Event) :
    clientReads (.WriteServer c :: evs) = clientReads evs := rfl

lemma clientReads_readServer (c : List Nat) (evs : List Event) :
    clientReads (.ReadServer c :: evs) = clientReads evs := rfl

lemma clientReads_writeClient (c : List Nat) (evs : List Event) :
    clientReads (.WriteClient c :: evs) = clientReads evs := rfl

lemma serverWrites_relayEvents (steps : List RelayStep) :
    serverWrites (relayEvents steps) = clientReads (relayEvents steps) := by
  induction steps with
  | nil => rfl
  | cons s rest ih =>
    cases s with
    | FromClient c =>
      by_cases hc : c = []
      · simp [relayEvents, hc, serverWrites_nil, clientReads_nil]
      · rw [relayEvents, if_neg hc, serverWrites_readClient, serverWrites_writeServer,
          clientReads_readClient, clientReads_writeServer, ih]
    | FromServer c =>
      by_cases hc : c = []
      · simp [relayEvents, hc, serverWrites_nil, clientReads_nil]
      · rw [relayEvents, if_neg hc, serverWrites_readServer, serverWrites_writeClient,
          clientReads_readServer, clientReads_writeClient, ih]

/-- C1: `detect` returns the name of the first entry in the fixed ordered
registry (tls, http, ssh, xmpp in that order) whose recognizer reports
`Success` on the given bytes, and returns `none` exactly when no
recognizer reports `Success` (every one is `Failure` or
`NotEnoughData`); the result depends only on the buffer and the registry
order. -/
theorem detect_first_match (buf : List Nat) :
    (detect buf = some "tls" ↔ detect_is_tls buf = .Success) ∧
    (detect buf = some "http" ↔
      detect_is_tls buf ≠ .Success ∧ detect_is_http buf = .Success) ∧
    (detect buf = some "ssh" ↔
      detect_is_tls buf ≠ .Success ∧ detect_is_http buf ≠ .Success ∧
      detect_is_ssh buf = .Success) ∧
    (detect buf = some "xmpp" ↔
      detect_is_tls buf ≠ .Success ∧ detect_is_http buf ≠ .Success ∧
      detect_is_ssh buf ≠ .Success ∧ detect_is_xmpp buf = .Success) ∧
    (detect buf = none ↔
      detect_is_tls buf ≠ .Success ∧ detect_is_http buf ≠ .Success ∧
      detect_is_ssh buf ≠ .Success ∧ detect_is_xmpp buf ≠ .Success) := by
  by_cases h1 : detect_is_tls buf = .Success <;>
  by_cases h2 : detect_is_http buf = .Success <;>
  by_cases h3 : detect_is_ssh buf = .Success <;>
  by_cases h4 : detect_is_xmpp buf = .Success <;>
  simp [detect, PROTOCOLS, detectFrom, h1, h2, h3, h4]

/-- C2: whenever the relay phase is entered (an upstream is configured
and the dial succeeds), the full buffered classification-phase bytes are
the first thing written to the upstream — the very next upstream action
after the dial, before any other upstream read or write — and the
concatenation of everything ever written to the upstream equals the
buffered bytes followed by the client bytes read afterward, in order,
with no gaps or duplication. -/
theorem relay_replays_buffered_bytes_first (cfg : Config) (proto : String)
    (initialBuf : List Nat) (steps : List RelayStep) (addr : Nat)
    (h : cfg.upstream_for proto = some addr) :
    (handle_proxy cfg proto initialBuf true steps).2
        = .Dial addr :: .WriteServer initialBuf :: relayEvents steps ∧
    (serverWrites (handle_proxy cfg proto initialBuf true steps).2).flatten
        = initialBuf
            ++ (clientReads (handle_proxy cfg proto initialBuf true steps).2).flatten := by
  have htr : (handle_proxy cfg proto initialBuf true steps).2
      = .Dial addr :: .WriteServer initialBuf :: relayEvents steps := by
    simp [handle_proxy, h]
  refine ⟨htr, ?_⟩
  rw [htr]
  have hd : serverWrites (Event.Dial addr :: Event.WriteServer initialBuf :: relayEvents steps)
      = initialBuf :: serverWrites (relayEvents steps) := rfl
  have hc : clientReads (Event.Dial addr :: Event.WriteServer initialBuf :: relayEvents steps)
      = clientReads (relayEvents steps) := rfl
  rw [hd, hc, List.flatten_cons, serverWrites_relayEvents]

/-- C2 witness: the relay ordering property at a concrete configuration,
buffered bytes [1, 2] and one subsequent client chunk [3]. -/
theorem relay_replays_buffered_bytes_first_witness :
    (handle_proxy ⟨[("ssh", 7)], 1000⟩ "ssh" [1, 2] true [.FromClient [3]]).2
        = .Dial 7 :: .WriteServer [1, 2] :: relayEvents [.FromClient [3]] ∧
    (serverWrites (handle_proxy ⟨[("ssh", 7)], 1000⟩ "ssh" [1, 2] true
        [.FromClient [3]]).2).flatten
      = [1, 2] ++ (clientReads (handle_proxy ⟨[("ssh", 7)], 1000⟩ "ssh" [1, 2] true
        [.FromClient [3]]).2).flatten :=
  relay_replays_buffered_bytes_first ⟨[("ssh", 7)], 1000⟩ "ssh" [1, 2]
    [.FromClient [3]] 7 (by decide)

/-- C3 counterexample: the timeout is NOT a single per-connection
deadline.  With a 1000 ms timeout and two undetectable one-byte chunks
arriving 900 ms apart, the code arms a fresh timer for every read, so
the connection is still in the collecting state long after 1000 ms and
only times out at 2800 ms — the total time spent collecting is not
bounded by the configured timeout. -/
theorem timeout_per_read_cex :
    classify 1000 1024 [(900, [97]), (900, [97])] [] 0 = (.TimedOut, 2800) ∧
    ¬ (2800 ≤ 1000) :=
  ⟨by decide, by decide⟩

/-- C3 amended: the timer is restarted at every loop iteration, so the
timeout bounds each individual wait, not the whole phase: the total time
spent in the collecting state is bounded by (number of data arrivals + 1)
times the configured timeout. -/
theorem classify_time_bound (T cap : Nat) (events : List (Nat × List Nat)) :
    ∀ (buf : List Nat) (elapsed : Nat),
      (classify T cap events buf elapsed).2 ≤ elapsed + (events.length + 1) * T := by
  induction events with
  | nil =>
    intro buf elapsed
    by_cases hc : buf.length = cap <;> simp [classify, hc]
  | cons ec rest ih =>
    obtain ⟨d, c⟩ := ec
    intro buf elapsed
    simp only [List.length_cons]
    by_cases hc : buf.length = cap
    · have hv : (classify T cap ((d, c) :: rest) buf elapsed).2 = elapsed := by
        simp [classify, hc]
      rw [hv]
      exact Nat.le_add_right _ _
    · by_cases hT : T ≤ d
      · have hv : (classify T cap ((d, c) :: rest) buf elapsed).2 = elapsed + T := by
          simp [classify, hc, hT]
        rw [hv]
        exact Nat.add_le_add_left (Nat.le_mul_of_pos_left T (by omega)) elapsed
      · have hdT : d < T := Nat.lt_of_not_le hT
        by_cases hcc : c = []
        · have hv : (classify T cap ((d, c) :: rest) buf elapsed).2 = elapsed + d := by
            simp [classify, hc, hT, hcc]
          rw [hv]
          exact Nat.add_le_add_left
            (Nat.le_trans hdT.le (Nat.le_mul_of_pos_left T (by omega))) elapsed
        · cases hdet : detect (buf ++ c.take (cap - buf.length)) with
          | some p =>
            have hv : (classify T cap ((d, c) :: rest) buf elapsed).2 = elapsed + d := by
              simp [classify, hc, hT, hcc, hdet]
            rw [hv]
            exact Nat.add_le_add_left
              (Nat.le_trans hdT.le (Nat.le_mul_of_pos_left T (by omega))) elapsed
          | none =>
            have heq : classify T cap ((d, c) :: rest) buf elapsed
                = classify T cap rest (buf ++ c.take (cap - buf.length)) (elapsed + d) := by
              conv_lhs => rw [classify]
              simp [hc, hT, hcc, hdet]
            rw [heq]
            have hrec := ih (buf ++ c.take (cap - buf.length)) (elapsed + d)
            have hmul : (rest.length + 1 + 1) * T = (rest.length + 1) * T + T := by ring
            rw [hmul]
            have hd' : d ≤ T := hdT.le
            generalize (rest.length + 1) * T = A at hrec ⊢
            omega

/-- C4 counterexample: `Rejected` is not final for every recognizer.
The HTTP recognizer rejects the three bytes "xyz" yet matches once "GET"
is appended, and the XMPP recognizer rejects 50 filler bytes yet matches
once "jabber" is appended. -/
theorem rejected_not_final_cex :
    detect_is_http [0x78, 0x79, 0x7a] = .Failure ∧
    detect_is_http ([0x78, 0x79, 0x7a] ++ [0x47, 0x45, 0x54]) = .Success ∧
    detect_is_xmpp (List.replicate 50 0x61) = .Failure ∧
    detect_is_xmpp (List.replicate 50 0x61 ++ JABBER) = .Success :=
  ⟨by decide, by decide, by decide, by decide⟩

/-- C4 amended: only the TLS and SSH recognizers, whose verdicts depend
on a fixed anchored window, keep `Failure` under every extension of the
buffer; the HTTP and XMPP recognizers search anywhere in the buffer and
can turn `Failure` into `Success` when more bytes arrive. -/
theorem rejected_stable_tls_ssh (p s : List Nat) :
    (detect_is_tls p = .Failure → detect_is_tls (p ++ s) = .Failure) ∧
    (detect_is_ssh p = .Failure → detect_is_ssh (p ++ s) = .Failure) := by
  refine ⟨fun h => ?_, fun h => ?_⟩
  · unfold detect_is_tls at h ⊢
    by_cases hl : p.length < 3
    · rw [if_pos hl] at h; exact absurd h (by simp)
    · have hl2 : ¬ (p ++ s).length < 3 := by rw [List.length_append]; omega
      rw [if_neg hl] at h
      rw [if_neg hl2, List.getD_append _ _ _ _ (by omega),
        List.getD_append _ _ _ _ (by omega), List.getD_append _ _ _ _ (by omega)]
      by_cases hcond : p.getD 0 0 = 0x16 ∧ p.getD 1 0 = 0x03 ∧ p.getD 2 0 ≤ 0x03
      · rw [if_pos hcond] at h; exact absurd h (by simp)
      · rw [if_neg hcond]
  · rcases p with _ | ⟨a, p⟩
    · simp [detect_is_ssh] at h
    rcases p with _ | ⟨b, p⟩
    · simp [detect_is_ssh] at h
    rcases p with _ | ⟨c, p⟩
    · simp [detect_is_ssh] at h
    rcases p with _ | ⟨d, r⟩
    · simp [detect_is_ssh] at h
    unfold detect_is_ssh at h ⊢
    simp only [List.cons_append]
    simp only [isPrefixOf_ssh_ext]
    have hl : ¬ ((a :: b :: c :: d :: r).length < 4) := by simp
    have hl2 : ¬ ((a :: b :: c :: d :: (r ++ s)).length < 4) := by simp
    rw [if_neg hl] at h
    rw [if_neg hl2]
    by_cases hpf : List.isPrefixOf SSH_DASH (a :: b :: c :: d :: r) = true
    · rw [if_pos hpf] at h; exact absurd h (by simp)
    · rw [if_neg hpf]

/-- C4 amended witness: concrete rejected buffers stay rejected after
appending a byte for TLS and SSH. -/
theorem rejected_stable_tls_ssh_witness :
    detect_is_tls ([0, 0, 0] ++ [1]) = .Failure ∧
    detect_is_ssh ([0, 0, 0, 0] ++ [1]) = .Failure :=
  ⟨(rejected_stable_tls_ssh [0, 0, 0] [1]).1 (by decide),
   (rejected_stable_tls_ssh [0, 0, 0, 0] [1]).2 (by decide)⟩

/-- C5: every buffer strictly shorter than a recognizer's minimum
required length (3 bytes for TLS, 4 for SSH, 3 for HTTP, 50 for XMPP)
yields `NotEnoughData` from that recognizer — never `Failure`, never
`Success`. -/
theorem recognizers_short_inconclusive (buf : List Nat) :
    (buf.length < 3 → detect_is_tls buf = .NotEnoughData) ∧
    (buf.length < 4 → detect_is_ssh buf = .NotEnoughData) ∧
    (buf.length < 3 → detect_is_http buf = .NotEnoughData) ∧
    (buf.length < 50 → detect_is_xmpp buf = .NotEnoughData) := by
  refine ⟨fun h => ?_, fun h => ?_, fun h => ?_, fun h => ?_⟩ <;>
    simp [detect_is_tls, detect_is_ssh, detect_is_http, detect_is_xmpp, h]

/-- C5 witness: concrete too-short buffers for each recognizer. -/
theorem recognizers_short_inconclusive_witness :
    detect_is_tls [0x16, 0x03] = .NotEnoughData ∧
    detect_is_ssh [0x53, 0x53, 0x48] = .NotEnoughData ∧
    detect_is_http [0x47, 0x45] = .NotEnoughData ∧
    detect_is_xmpp (List.replicate 49 0x6a) = .NotEnoughData :=
  ⟨(recognizers_short_inconclusive [0x16, 0x03]).1 (by decide),
   (recognizers_short_inconclusive [0x53, 0x53, 0x48]).2.1 (by decide),
   (recognizers_short_inconclusive [0x47, 0x45]).2.2.1 (by decide),
   (recognizers_short_inconclusive (List.replicate 49 0x6a)).2.2.2 (by decide)⟩

/-- C6: for every recognizer in the registry, a `Success` verdict on a
buffer is preserved by appending any further bytes. -/
theorem matched_stable_under_extension (p s : List Nat) :
    (detect_is_tls p = .Success → detect_is_tls (p ++ s) = .Success) ∧
    (detect_is_ssh p = .Success → detect_is_ssh (p ++ s) = .Success) ∧
    (detect_is_http p = .Success → detect_is_http (p ++ s) = .Success) ∧
    (detect_is_xmpp p = .Success → detect_is_xmpp (p ++ s) = .Success) := by
  refine ⟨fun h => ?_, fun h => ?_, fun h => ?_, fun h => ?_⟩
  · unfold detect_is_tls at h ⊢
    by_cases hl : p.length < 3
    · rw [if_pos hl] at h; exact absurd h (by simp)
    · have hl2 : ¬ (p ++ s).length < 3 := by rw [List.length_append]; omega
      rw [if_neg hl] at h
      rw [if_neg hl2, List.getD_append _ _ _ _ (by omega),
        List.getD_append _ _ _ _ (by omega), List.getD_append _ _ _ _ (by omega)]
      by_cases hcond : p.getD 0 0 = 0x16 ∧ p.getD 1 0 = 0x03 ∧ p.getD 2 0 ≤ 0x03
      · rw [if_pos hcond]
      · rw [if_neg hcond] at h; exact absurd h (by simp)
  · rcases p with _ | ⟨a, p⟩
    · simp [detect_is_ssh] at h
    rcases p with _ | ⟨b, p⟩
    · simp [detect_is_ssh] at h
    rcases p with _ | ⟨c, p⟩
    · simp [detect_is_ssh] at h
    rcases p with _ | ⟨d, r⟩
    · simp [detect_is_ssh] at h
    unfold detect_is_ssh at h ⊢
    simp only [List.cons_append]
    simp only [isPrefixOf_ssh_ext]
    have hl : ¬ ((a :: b :: c :: d :: r).length < 4) := by simp
    have hl2 : ¬ ((a :: b :: c :: d :: (r ++ s)).length < 4) := by simp
    rw [if_neg hl] at h
    rw [if_neg hl2]
    by_cases hpf : List.isPrefixOf SSH_DASH (a :: b :: c :: d :: r) = true
    · rw [if_pos hpf]
    · rw [if_neg hpf] at h; exact absurd h (by simp)
  · unfold detect_is_http at h ⊢
    by_cases hl : p.length < 3
    · rw [if_pos hl] at h; exact absurd h (by simp)
    · have hl2 : ¬ (p ++ s).length < 3 := by rw [List.length_append]; omega
      rw [if_neg hl] at h
      rw [if_neg hl2]
      by_cases hw : hasWindow HTTP_BYTES p = true
      · rw [if_pos (hasWindow_append s hw)]
      · rw [if_neg hw] at h
        by_cases hw2 : hasWindow HTTP_BYTES (p ++ s) = true
        · rw [if_pos hw2]
        · rw [if_neg hw2]
          by_cases hm : METHODS.any (fun m => hasWindow m p) = true
          · obtain ⟨m, hmem, hwm⟩ := List.any_eq_true.mp hm
            have hany : METHODS.any (fun m => hasWindow m (p ++ s)) = true :=
              List.any_eq_true.mpr
                ⟨m, hmem, by simpa using hasWindow_append s (by simpa using hwm)⟩
            rw [if_pos hany]
          · rw [if_neg hm] at h; exact absurd h (by simp)
  · unfold detect_is_xmpp at h ⊢
    by_cases hl : p.length < 50
    · rw [if_pos hl] at h; exact absurd h (by simp)
    · have hl2 : ¬ (p ++ s).length < 50 := by rw [List.length_append]; omega
      rw [if_neg hl] at h
      rw [if_neg hl2]
      by_cases hw : hasWindow JABBER p = true
      · rw [if_pos (hasWindow_append s hw)]
      · rw [if_neg hw] at h; exact absurd h (by simp)

/-- C6 witness: concrete matched buffers for each recognizer stay
matched after appending a byte. -/
theorem matched_stable_under_extension_witness :
    detect_is_tls ([0x16, 0x03, 0x01] ++ [0]) = .Success ∧
    detect_is_ssh ([0x53, 0x53, 0x48, 0x2d] ++ [0x32]) = .Success ∧
    detect_is_http ([0x47, 0x45, 0x54] ++ [0x20]) = .Success ∧
    detect_is_xmpp ((List.replicate 44 0x61 ++ JABBER) ++ [0]) = .Success :=
  ⟨(matched_stable_under_extension [0x16, 0x03, 0x01] [0]).1 (by decide),
   (matched_stable_under_extension [0x53, 0x53, 0x48, 0x2d] [0x32]).2.1 (by decide),
   (matched_stable_under_extension [0x47, 0x45, 0x54] [0x20]).2.2.1 (by decide),
   (matched_stable_under_extension (List.replicate 44 0x61 ++ JABBER) [0]).2.2.2 (by decide)⟩

/-- C7: if, while the accumulated bytes do not yet classify (`detect`
returns `none`), a read during the classification phase returns zero
bytes (the client closed) before the per-wait timer fires, the
classifier gives up and the connection handler performs no I/O at all:
no upstream dial and no write to any socket. -/
theorem eof_before_match_drops (cfg : Config) (cap d : Nat)
    (rest : List (Nat × List Nat)) (buf : List Nat) (elapsed : Nat)
    (dialOk : Bool) (steps : List RelayStep)
    (hnone : detect buf = none) (hd : d < cfg.timeout) :
    (classify cfg.timeout cap ((d, []) :: rest) buf elapsed).1 = .GaveUp ∧
    handleFrom cfg cap ((d, []) :: rest) buf elapsed dialOk steps = [] := by
  have hfin : finalDetect buf = .GaveUp := by
    unfold finalDetect
    rw [hnone]
  have hcl : classify cfg.timeout cap ((d, []) :: rest) buf elapsed
      = (.GaveUp, if buf.length = cap then elapsed else elapsed + d) := by
    by_cases hc : buf.length = cap
    · simp [classify, hc, hfin]
    · simp [classify, hc, Nat.not_le.mpr hd, hfin]
  refine ⟨by rw [hcl], ?_⟩
  unfold handleFrom
  rw [hcl]

/-- C7 witness: a client that closes immediately after connecting,
having sent nothing, produces no dial and no I/O events. -/
theorem eof_before_match_drops_witness :
    (classify 1000 1024 [(0, [])] [] 0).1 = .GaveUp ∧
    handleFrom ⟨[("tls", 5)], 1000⟩ 1024 [(0, [])] [] 0 true [] = [] :=
  eof_before_match_drops ⟨[("tls", 5)], 1000⟩ 1024 0 [] [] 0 true []
    (by decide) (by decide)

/-- C8: on every buffer of at least 3 bytes the HTTP recognizer reports
`Success` exactly when the literal "HTTP" occurs somewhere in the buffer
or one of the method tokens GET, PUT, HEAD, POST, TRACE, DELETE,
CONNECT, OPTIONS occurs as a contiguous byte sequence anywhere in the
buffer (not anchored to the start), and reports `Failure` otherwise. -/
theorem http_matched_iff_token_occurs (buf : List Nat) (hlen : 3 ≤ buf.length) :
    (detect_is_http buf = .Success ↔
      (OccursIn HTTP_BYTES buf ∨ ∃ m ∈ METHODS, OccursIn m buf)) ∧
    (detect_is_http buf = .Failure ↔
      ¬(OccursIn HTTP_BYTES buf ∨ ∃ m ∈ METHODS, OccursIn m buf)) := by
  have hnl : ¬ buf.length < 3 := by omega
  have key : (hasWindow HTTP_BYTES buf = true ∨ METHODS.any (fun m => hasWindow m buf) = true)
      ↔ (OccursIn HTTP_BYTES buf ∨ ∃ m ∈ METHODS, OccursIn m buf) := by
    constructor
    · rintro (h | h)
      · exact Or.inl (hasWindow_imp_occurs h)
      · obtain ⟨m, hm, hw⟩ := List.any_eq_true.mp h
        exact Or.inr ⟨m, hm, hasWindow_imp_occurs (by simpa using hw)⟩
    · rintro (h | ⟨m, hm, hocc⟩)
      · exact Or.inl (occurs_imp_hasWindow (by decide) h)
      · refine Or.inr (List.any_eq_true.mpr ⟨m, hm, ?_⟩)
        have hne : m ≠ [] := by
          simp only [METHODS, List.mem_cons, List.not_mem_nil, or_false] at hm
          rcases hm with rfl | rfl | rfl | rfl | rfl | rfl | rfl | rfl <;> decide
        simpa using occurs_imp_hasWindow hne hocc
  unfold detect_is_http
  rw [if_neg hnl]
  by_cases h1 : hasWindow HTTP_BYTES buf = true
  · have hR := key.mp (Or.inl h1)
    rw [if_pos h1]
    simp [hR]
  · rw [if_neg h1]
    by_cases h2 : METHODS.any (fun m => hasWindow m buf) = true
    · have hR := key.mp (Or.inr h2)
      rw [if_pos h2]
      simp [hR]
    · have hR : ¬(OccursIn HTTP_BYTES buf ∨ ∃ m ∈ METHODS, OccursIn m buf) := by
        intro hr
        rcases key.mpr hr with h | h
        · exact h1 h
        · exact h2 h
      rw [if_neg h2]
      simp [hR]

/-- C8 witness: the characterization instantiated at the 3-byte buffer
"GET". -/
theorem http_matched_iff_token_occurs_witness :
    3 ≤ [0x47, 0x45, 0x54].length ∧
    ((detect_is_http [0x47, 0x45, 0x54] = .Success ↔
      (OccursIn HTTP_BYTES [0x47, 0x45, 0x54] ∨
        ∃ m ∈ METHODS, OccursIn m [0x47, 0x45, 0x54])) ∧
    (detect_is_http [0x47, 0x45, 0x54] = .Failure ↔
      ¬(OccursIn HTTP_BYTES [0x47, 0x45, 0x54] ∨
        ∃ m ∈ METHODS, OccursIn m [0x47, 0x45, 0x54]))) :=
  ⟨by decide, http_matched_iff_token_occurs [0x47, 0x45, 0x54] (by decide)⟩

/-- C9: when the classified protocol has no configured upstream,
`handle_proxy` returns Ok after only the warning: no dial event and no
byte written to any socket. -/
theorem no_upstream_drops (cfg : Config) (proto : String) (initialBuf : List Nat)
    (dialOk : Bool) (steps : List RelayStep)
    (h : cfg.upstream_for proto = none) :
    handle_proxy cfg proto initialBuf dialOk steps = (true, [.LogWarn proto]) := by
  simp [handle_proxy, h]

/-- C9 witness: a TLS connection against an empty upstream map is
dropped with just the warning. -/
theorem no_upstream_drops_witness :
    handle_proxy ⟨[], 1000⟩ "tls" [0x16, 0x03, 0x01] true [] = (true, [.LogWarn "tls"]) :=
  no_upstream_drops ⟨[], 1000⟩ "tls" [0x16, 0x03, 0x01] true [] rfl

/-- C10: the detected protocol name is not stable under growing the
buffer: "SSH-" alone detects as ssh, but appending "GET" makes the
earlier-listed HTTP recognizer match anywhere in the buffer, so the
overall result flips to http even though the SSH recognizer still
matches. -/
theorem detect_overtake :
    ∃ p s : List Nat, detect p = some "ssh" ∧ detect (p ++ s) = some "http" ∧
      detect_is_ssh (p ++ s) = .Success :=
  ⟨[0x53, 0x53, 0x48, 0x2d], [0x47, 0x45, 0x54], by decide, by decide, by decide⟩
